import Mathlib

/-!
# go_homework: week02 (user-name lookup handler) and week03 (errgroup supervisor)

A shallow embedding of the two programs of the repository.

* `week02` is sequential code: the DAO `GetUserInfo`, the handler
  `DisplayUserName`, and the parts of `github.com/pkg/errors`, `errors` and
  `strings` that they call.
* `week03` is a concurrent program: three tasks started with `g.Go` on an
  `errgroup.Group`, the `/shutdown` handler, and `main` blocked in
  `g.Wait()`.  It is embedded as a labelled transition system whose steps are
  the pieces of straight-line code between two blocking points of a
  goroutine: a task's return and the bookkeeping of `g.Go` for it are one
  step, and so are the end of a `select` and the code up to the next wait.
  A `select` with two ready cases may take either.  The libraries behave as
  documented: the context of `errgroup.WithContext` is cancelled the first
  time a task returns a non-nil error or `Wait` returns; `ListenAndServe`
  always returns a non-nil error, `http.ErrServerClosed` after `Shutdown`;
  `Shutdown` returns nil once no connection is busy, or the error of its
  context when the deadline passes first.
-/

namespace week02

/-! ## Go error values -/

/-- A Go `error` value that is not nil.

* `New ptr text` is a value made by `errors.New(text)`: a pointer, compared by
  its address `ptr`, not by its text.
* `uncomparable text` is an error whose dynamic type is not comparable (a
  struct with a slice field, say) and that has no `Is` and no `Unwrap` method.
* `withMessage ptr cause msg` is what `errors.Wrap(cause, msg)` of
  `github.com/pkg/errors` builds at the address `ptr`: a pointer too, so two
  wrappers are equal only when they are the same object (the recorded stack
  does not take part in `Error()`, `Unwrap()` or `errors.Is`). -/
inductive GoError where
  | New (ptr : Nat) (text : String)
  | uncomparable (text : String)
  | withMessage (ptr : Nat) (cause : GoError) (msg : String)
deriving DecidableEq, Repr

/-- The method `Error()`: a wrapped error prints its message, a colon and a
blank, then its cause. -/
def GoError.Error : GoError → String
  | .New _ text => text
  | .uncomparable text => text
  | .withMessage _ cause msg => msg ++ ": " ++ cause.Error

/-- Whether the dynamic type of the error is comparable
(`reflect.TypeOf(err).Comparable()`). -/
def GoError.Comparable : GoError → Bool
  | .uncomparable _ => false
  | _ => true

/-- The function `errors.Wrap(err, message)`: nil for a nil `err`; otherwise a
new wrapper, allocated at the address `ptr`. -/
def Wrap (ptr : Nat) (err : Option GoError) (message : String) : Option GoError :=
  match err with
  | none => none
  | some e => some (.withMessage ptr e message)

/-- The function `errors.Is(err, target)` for non-nil arguments: it walks from
`err` along `Unwrap()` and reports a match when `target` has a comparable type
and equals the error at hand; for a target of a type that is not comparable
the `==` test is skipped. -/
def Is : GoError → GoError → Bool
  | .withMessage ptr cause msg, target =>
      (target.Comparable && decide (GoError.withMessage ptr cause msg = target)) ||
        Is cause target
  | e, target => target.Comparable && decide (e = target)

/-- The sentinel `sql.ErrNoRows`. -/
def ErrNoRows : GoError := .New 0 "sql: no rows in result set"

/-! ## strings.TrimSpace -/

/-- The predicate `unicode.IsSpace`. -/
def IsSpace (c : Char) : Bool :=
  let n := c.toNat
  (9 ≤ n && n ≤ 13) || n == 32 || n == 0x85 || n == 0xA0 || n == 0x1680 ||
    (0x2000 ≤ n && n ≤ 0x200A) || n == 0x2028 || n == 0x2029 || n == 0x202F ||
    n == 0x205F || n == 0x3000

/-- The function `strings.TrimSpace`: leading and trailing white space removed. -/
def TrimSpace (s : String) : String :=
  String.mk ((((s.toList.dropWhile IsSpace).reverse).dropWhile IsSpace).reverse)

/-! ## The DAO and the handler -/

/-- A statement sent to the database: the query text and its one argument. -/
structure Query where
  text : String
  arg : String
deriving DecidableEq, Repr

/-- The database `*sql.DB`, as far as the program uses it:
`db.QueryRow(query, arg).Scan(&name)` gives the value left in `name` and the
scan error (nil, `sql.ErrNoRows`, or any other error). -/
structure DB where
  QueryRowScan : Query → String × Option GoError

/-- The type `Dao`. -/
structure Dao where
  db : DB

/-- What `GetUserInfo` returns, with the statements it sent to the database. -/
structure UserInfo where
  name : String
  err : Option GoError
  sent : List Query

/-- The method `Dao.GetUserInfo`; `ptr` is the address at which `errors.Wrap`
allocates the wrapper, when it makes one. -/
def Dao.GetUserInfo (d : Dao) (account : String) (ptr : Nat) : UserInfo :=
  let query := "select username from t_user where account=?"
  let scanned := d.db.QueryRowScan ⟨query, account⟩
  { name := scanned.1, err := Wrap ptr scanned.2 "dao: GetUserInfo",
    sent := [⟨query, account⟩] }

/-- The type `UserHandler`. -/
structure UserHandler where
  dao : Dao

/-- The observable effects of one call of the handler: the bodies passed to
`rsp.Write`, in order, and the statements sent to the database. -/
structure Effects where
  written : List String
  sent : List Query

/-- The method `UserHandler.DisplayUserName`; `formValue` is what
`r.FormValue("userAccount")` gives after `r.ParseForm()`, and `ptr` the address
at which the DAO allocates the wrapper of a scan error. -/
def UserHandler.DisplayUserName (h : UserHandler) (formValue : String) (ptr : Nat) :
    Effects :=
  let userAccount := TrimSpace formValue
  if userAccount = "" then
    { written := ["read arg userAccount is blank"], sent := [] }
  else
    let info := h.dao.GetUserInfo userAccount ptr
    match info.err with
    | none => { written := [info.name], sent := info.sent }
    | some err =>
      if Is err ErrNoRows then
        { written := ["user is not exists with account '" ++ userAccount ++ "'"],
          sent := info.sent }
      else
        { written := [err.Error], sent := info.sent }

end week02

namespace week03

/-! ## Errors and signals -/

/-- The two signals passed to `signal.Notify`. -/
inductive Signal where
  | SIGINT
  | SIGTERM
deriving DecidableEq, Repr

/-- The method `String()` of `syscall.Signal`, which `%v` prints. -/
def Signal.String : Signal → String
  | .SIGINT => "interrupt"
  | .SIGTERM => "terminated"

/-- The non-nil `error` values of the program.  `listen` and `accept` are the
errors that `server.ListenAndServe()` returns when `net.Listen` fails and when
`Accept` fails on a server that is not shutting down; `Errorf text` is a value
made by `errors.Errorf`. -/
inductive Err where
  | listen (text : String)
  | accept (text : String)
  | ErrServerClosed
  | Canceled
  | DeadlineExceeded
  | Errorf (text : String)
deriving DecidableEq, Repr

/-- The method `Error()`. -/
def Err.Error : Err → String
  | .listen text => text
  | .accept text => text
  | .ErrServerClosed => "http: Server closed"
  | .Canceled => "context canceled"
  | .DeadlineExceeded => "context deadline exceeded"
  | .Errorf text => text

/-! ## context and errgroup -/

/-- A cancellable context: `err` is `ctx.Err()`, nil while the context is open. -/
structure Context where
  err : Option Err
deriving DecidableEq, Repr

/-- Whether the channel `ctx.Done()` is closed. -/
def Context.Done (ctx : Context) : Bool := ctx.err.isSome

/-- The cancel function of `context.WithCancel`: the first call closes the
context with `context.Canceled`, later calls do nothing. -/
def Context.cancel (ctx : Context) : Context :=
  match ctx.err with
  | none => { err := some .Canceled }
  | some _ => ctx

/-- An `errgroup.Group` made by `errgroup.WithContext`: the counter of its
`sync.WaitGroup`, the error kept under `errOnce`, and the derived context,
which the group's `cancel` closes. -/
structure Group where
  wg : Nat
  err : Option Err
  ctx : Context
deriving DecidableEq, Repr

/-- The function `errgroup.WithContext(context.Background())`. -/
def WithContext : Group := { wg := 0, err := none, ctx := { err := none } }

/-- The method `g.Go(f)`, as far as the caller sees it: `wg.Add(1)`; the
goroutine that runs `f` is a component of `State`. -/
def Group.Go (g : Group) : Group := { g with wg := g.wg + 1 }

/-- What the goroutine started by `g.Go(f)` does once `f` has returned `r`:
a non-nil `r` goes through `errOnce`, which on its first use stores it in
`g.err` and cancels the context; then `wg.Done()`. -/
def Group.taskReturn (g : Group) (r : Option Err) : Group :=
  match r, g.err with
  | some e, none => { wg := g.wg - 1, err := some e, ctx := g.ctx.cancel }
  | _, _ => { g with wg := g.wg - 1 }

/-- The method `g.Wait()`: blocked (`none`) until the counter is zero, then it
cancels the context and returns `g.err`. -/
def Group.Wait (g : Group) : Option (Option Err × Group) :=
  match g.wg with
  | 0 => some (g.err, { g with ctx := g.ctx.cancel })
  | _ + 1 => none

/-- The group after tasks have returned the values `rs`, in that order. -/
def Group.afterReturns (g : Group) (rs : List (Option Err)) : Group :=
  rs.foldl Group.taskReturn g

/-- The first non-nil error of a list of task results, nil when there is none. -/
def firstError : List (Option Err) → Option Err
  | [] => none
  | some e :: _ => some e
  | none :: rs => firstError rs

/-! ## The bodies of the three tasks -/

/-- The case that the `select` of the second task takes. -/
inductive ShutdownCase where
  | ctxDone
  | serverOut
deriving DecidableEq, Repr

/-- The case that the `select` of the third task takes; `sig s` is the
receive of the signal `s` from `c`. -/
inductive SignalCase where
  | ctxDone
  | sig (s : Signal)
deriving DecidableEq, Repr

/-- The first task: `return server.ListenAndServe()`, where `listenAndServe` is
the (always non-nil) error that `ListenAndServe` returned. -/
def g1 (listenAndServe : Err) : Option Err := some listenAndServe

/-- The lines the second task prints: one for the case its `select` took, then
the one before `server.Shutdown`. -/
def g2Log : ShutdownCase → List String
  | .ctxDone => ["errgroup exit...", "shutting down server..."]
  | .serverOut => ["server will out...", "shutting down server..."]

/-- The second task after its `select` took the case `c`:
`return server.Shutdown(timeoutCtx)`, where `shutdown` is what `Shutdown`
returned. -/
def g2 (_c : ShutdownCase) (shutdown : Option Err) : Option Err := shutdown

/-- The third task after its `select` took the case `c`, with `ctx` the shared
context at that moment. -/
def g3 (ctx : Context) : SignalCase → Option Err
  | .ctxDone => ctx.err
  | .sig s => some (.Errorf ("get os signal: " ++ s.String))

/-! ## The program as a transition system -/

/-- The three tasks started with `g.Go`, in the order of the source. -/
inductive TaskId where
  | server
  | shutdown
  | signal
deriving DecidableEq, Repr

/-- Where the first task is: before `net.Listen`, blocked in `Accept`, or
returned with a result. -/
inductive ServerPc where
  | starting
  | serving
  | returned (r : Option Err)
deriving DecidableEq, Repr

/-- Where the second task is: blocked in its `select`, blocked in
`server.Shutdown` after its `select` took the case `c`, or returned with a
result. -/
inductive ShutdownPc where
  | selecting
  | draining (c : ShutdownCase)
  | returned (r : Option Err)
deriving DecidableEq, Repr

/-- Where the third task is: blocked in its `select`, or returned. -/
inductive SignalPc where
  | selecting
  | returned (r : Option Err)
deriving DecidableEq, Repr

/-- The state of a run of `main`, once the three tasks are started and the
channel `c` is registered with `signal.Notify`.

* `g` is the group with its context `ctx`;
* `inShutdown` says that `server.Shutdown` has been called;
* `t1`, `t2`, `t3` are the three tasks;
* `c` is the signal channel (capacity 1);
* `serverOut` counts the `/shutdown` handlers blocked in
  `serverOut <- struct{}{}` (the channel is unbuffered, so a send ends only
  when the second task receives it);
* `log` holds the lines printed with `log.Println`;
* `out` is the value of `g.Wait()` that `main` printed, once it has returned;
* `history` lists the tasks that have returned, with their results, in the
  order in which they returned. -/
structure State where
  g : Group
  inShutdown : Bool
  t1 : ServerPc
  t2 : ShutdownPc
  t3 : SignalPc
  c : Option Signal
  serverOut : Nat
  log : List String
  out : Option (Option Err)
  history : List (TaskId × Option Err)
deriving DecidableEq, Repr

/-- The state after `main` has run up to `g.Wait()`. -/
def init : State :=
  { g := WithContext.Go.Go.Go, inShutdown := false, t1 := .starting, t2 := .selecting,
    t3 := .selecting, c := none, serverOut := 0, log := [], out := none, history := [] }

/-- One step of a run: a task (or `main`, or a `/shutdown` handler) runs from
one blocking point to the next, or the outside world delivers an event. -/
inductive Action where
  | listenFail (text : String)
  | listenOk
  | acceptFail (text : String)
  | serverClosed
  | request
  | g2Done
  | g2Recv
  | shutdownNil
  | shutdownTimeout
  | signal (sig : Signal)
  | g3Done
  | g3Sig
  | wait
deriving DecidableEq, Repr

/-- The task `t` returns `r`: its wrapper in `g.Go` runs, and the return is
written to the history. -/
def State.taskReturn (s : State) (t : TaskId) (r : Option Err) : State :=
  { s with g := s.g.taskReturn r, history := s.history ++ [(t, r)] }

/-- The step function of the program: `step s a` is the state after the step
`a`, or `none` when `a` cannot be taken in `s`.

* `listenFail`, `listenOk`: `net.Listen` inside `ListenAndServe` fails (the
  task returns its error) or succeeds (the server accepts connections);
* `acceptFail`: `Accept` fails on a server that is not shutting down;
* `serverClosed`: after `Shutdown` was called, `ListenAndServe` returns
  `http.ErrServerClosed`;
* `request`: a client calls `/shutdown` on the serving server, its handler
  blocks in the send on `serverOut`;
* `g2Done`, `g2Recv`: the `select` of the second task takes a ready case (for
  `g2Recv` one handler ends its send and returns), prints its lines and calls
  `server.Shutdown`, which closes the listener and then waits;
* `shutdownNil`, `shutdownTimeout`: `Shutdown` returns nil (no connection is
  busy: no handler is blocked) or, when its 3 seconds are over, the deadline
  error; the second task returns that value;
* `signal`: the runtime puts a signal into `c`, or drops it when `c` is full;
* `g3Done`, `g3Sig`: the `select` of the third task takes a ready case and the
  task returns;
* `wait`: `g.Wait()` returns in `main`. -/
def step (s : State) : Action → Option State
  | .listenFail text =>
    match s.t1 with
    | .starting => some ({ s with t1 := .returned (g1 (.listen text)) }.taskReturn .server
        (g1 (.listen text)))
    | _ => none
  | .listenOk =>
    match s.t1, s.inShutdown with
    | .starting, false => some { s with t1 := .serving }
    | _, _ => none
  | .acceptFail text =>
    match s.t1, s.inShutdown with
    | .serving, false => some ({ s with t1 := .returned (g1 (.accept text)) }.taskReturn .server
        (g1 (.accept text)))
    | _, _ => none
  | .serverClosed =>
    match s.t1, s.inShutdown with
    | .starting, true
    | .serving, true => some ({ s with t1 := .returned (g1 .ErrServerClosed) }.taskReturn .server
        (g1 .ErrServerClosed))
    | _, _ => none
  | .request =>
    match s.t1, s.inShutdown with
    | .serving, false => some { s with serverOut := s.serverOut + 1 }
    | _, _ => none
  | .g2Done =>
    match s.t2, s.g.ctx.Done with
    | .selecting, true =>
      some { s with t2 := .draining .ctxDone, inShutdown := true,
                    log := s.log ++ g2Log .ctxDone }
    | _, _ => none
  | .g2Recv =>
    match s.t2, s.serverOut with
    | .selecting, n + 1 =>
      some { s with t2 := .draining .serverOut, inShutdown := true, serverOut := n,
                    log := s.log ++ g2Log .serverOut }
    | _, _ => none
  | .shutdownNil =>
    match s.t2, s.serverOut with
    | .draining c, 0 => some ({ s with t2 := .returned (g2 c none) }.taskReturn .shutdown
        (g2 c none))
    | _, _ => none
  | .shutdownTimeout =>
    match s.t2 with
    | .draining c => some ({ s with t2 := .returned (g2 c (some .DeadlineExceeded)) }.taskReturn
        .shutdown (g2 c (some .DeadlineExceeded)))
    | _ => none
  | .signal sig =>
    match s.c with
    | none => some { s with c := some sig }
    | some _ => some s
  | .g3Done =>
    match s.t3, s.g.ctx.Done with
    | .selecting, true => some ({ s with t3 := .returned (g3 s.g.ctx .ctxDone) }.taskReturn .signal
        (g3 s.g.ctx .ctxDone))
    | _, _ => none
  | .g3Sig =>
    match s.t3, s.c with
    | .selecting, some sig =>
      some ({ s with t3 := .returned (g3 s.g.ctx (.sig sig)), c := none }.taskReturn .signal
        (g3 s.g.ctx (.sig sig)))
    | _, _ => none
  | .wait =>
    match s.out, s.g.Wait with
    | none, some (r, g) => some { s with g := g, out := some r }
    | _, _ => none

/-- The state after the steps `acts`, taken in order from `s`; `none` when one
of them cannot be taken. -/
def run (s : State) : List Action → Option State
  | [] => some s
  | a :: acts => (step s a).bind fun s' => run s' acts

/-- The steps that the program takes by itself: the outside world does
nothing in them but let time pass.  The others need a client (`request`), a
signal, or a failure of the network (`listenFail`, `acceptFail`). -/
def Action.internal : Action → Bool
  | .listenFail _ | .acceptFail _ | .request | .signal _ => false
  | _ => true

/-- Whether the first task has returned. -/
def ServerPc.isReturned : ServerPc → Bool
  | .returned _ => true
  | _ => false

/-- Whether the second task has returned. -/
def ShutdownPc.isReturned : ShutdownPc → Bool
  | .returned _ => true
  | _ => false

/-- Whether the third task has returned. -/
def SignalPc.isReturned : SignalPc → Bool
  | .returned _ => true
  | _ => false

/-- At least one of the three tasks has returned. -/
def State.someReturned (s : State) : Bool :=
  s.t1.isReturned || s.t2.isReturned || s.t3.isReturned

/-- All three tasks have returned and `g.Wait()` has returned. -/
def State.allExited (s : State) : Bool :=
  s.t1.isReturned && s.t2.isReturned && s.t3.isReturned && s.out.isSome

/-- The number of steps that the tasks and `main` still have before them. -/
def State.remaining (s : State) : Nat :=
  (match s.t1 with | .starting => 2 | .serving => 1 | .returned _ => 0) +
  (match s.t2 with | .selecting => 2 | .draining _ => 1 | .returned _ => 0) +
  (match s.t3 with | .selecting => 1 | .returned _ => 0) +
  (match s.out with | none => 1 | some _ => 0)

/-- The result with which a task has returned, if it has. -/
def State.result (s : State) : TaskId → Option (Option Err)
  | .server => match s.t1 with | .returned r => some r | _ => none
  | .shutdown => match s.t2 with | .returned r => some r | _ => none
  | .signal => match s.t3 with | .returned r => some r | _ => none

/-- The number of tasks that have not returned. -/
def State.pending (s : State) : Nat :=
  (if s.t1.isReturned then 0 else 1) + (if s.t2.isReturned then 0 else 1) +
    (if s.t3.isReturned then 0 else 1)

/-- The facts that hold in every state a run of `main` reaches: an error in
the group closes the context; the context is closed by nothing but the
group; the first and the third task return an error, the second nil or the
deadline error; `Shutdown` has been called exactly when the second task has
left its `select`; the counter is the number of tasks that have not returned;
`Wait` returns the kept error, after the counter is zero; a blocked handler
means a server that was bound; the kept error is the first error of the
history, which lists exactly the tasks that have returned. -/
structure Inv (s : State) : Prop where
  cancelled : s.g.err.isSome = true → s.g.ctx.Done = true
  canceledErr : s.g.ctx.err = none ∨ s.g.ctx.err = some .Canceled
  closedBy : s.out = none → s.g.ctx.Done = true → s.g.err.isSome = true
  r1 : ∀ r, s.t1 = .returned r → r.isSome = true ∧ s.g.err.isSome = true
  r2 : ∀ r, s.t2 = .returned r → r = none ∨ (r = some .DeadlineExceeded ∧ s.g.err.isSome = true)
  r3 : ∀ r, s.t3 = .returned r → r.isSome = true ∧ s.g.err.isSome = true
  shut : s.inShutdown = true ↔ s.t2 ≠ .selecting
  wg : s.g.wg = s.pending
  out : ∀ r, s.out = some r → r = s.g.err ∧ s.g.wg = 0
  serving : 0 < s.serverOut → s.t1 ≠ .starting
  hist : s.g.err = firstError (s.history.map Prod.snd)
  histMem : ∀ t r, (t, r) ∈ s.history ↔ s.result t = some r
  histLen : s.history.length + s.g.wg = 3

end week03

/-! # Theorems -/

namespace week02

/-- An error of a comparable type matches itself under `errors.Is`. -/
theorem Is_self (e : GoError) (h : e.Comparable = true) : Is e e = true := by
  cases e <;> simp_all [Is, GoError.Comparable]

/-- Wrapping keeps every match of the cause. -/
theorem Is_withMessage_of_Is (e target : GoError) (ptr : Nat) (msg : String)
    (h : Is e target = true) : Is (.withMessage ptr e msg) target = true := by
  simp [Is, h]

/-- A wrapper is not the sentinel `sql.ErrNoRows`, so it matches the sentinel
exactly when its cause does. -/
theorem Is_withMessage_ErrNoRows (e : GoError) (ptr : Nat) (msg : String) :
    Is (.withMessage ptr e msg) ErrNoRows = Is e ErrNoRows := by
  simp [Is, ErrNoRows]

/-- An error of a type that is not comparable has no match under `errors.Is`,
in whatever chain one looks for it. -/
theorem Is_uncomparable (e : GoError) (text : String) :
    Is e (.uncomparable text) = false := by
  induction e with
  | New ptr t => simp [Is, GoError.Comparable]
  | uncomparable t => simp [Is, GoError.Comparable]
  | withMessage ptr cause msg ih => simp [Is, GoError.Comparable, ih]

/-- The text of an error wrapped by `GetUserInfo`. -/
theorem Error_withMessage_dao (e : GoError) (ptr : Nat) :
    (GoError.withMessage ptr e "dao: GetUserInfo").Error = "dao: GetUserInfo: " ++ e.Error := by
  show "dao: GetUserInfo" ++ ": " ++ e.Error = "dao: GetUserInfo: " ++ e.Error
  rw [String.append_assoc]
  rfl

/-- C9 as stated fails: the scan returns an error `e` whose type is not
comparable; `GetUserInfo` wraps it, and `errors.Is` does not find `e` in the
wrapped error, because it skips the `==` test for such a target. -/
theorem wrapped_uncomparable_not_matched :
    ∃ w, (Dao.GetUserInfo ⟨⟨fun _ => ("", some (.uncomparable "bad rows"))⟩⟩ "bob" 1).err
        = some w ∧
      w.Error = "dao: GetUserInfo: bad rows" ∧
      Is w (.uncomparable "bad rows") = false :=
  ⟨_, rfl, by decide, by decide⟩

/-- C9, amended: `Dao.GetUserInfo` returns a nil error exactly when the row
scan returned nil (`errors.Wrap` of nil is nil); for a non-nil scan error `e`
the returned error is non-nil, its text is "dao: GetUserInfo: " followed by the
text of `e`, and `errors.Is` still finds `e` in it when the type of `e` is
comparable, and only then; whatever `e` matched it still matches, so a wrapped
`sql.ErrNoRows` matches `sql.ErrNoRows`. -/
theorem GetUserInfo_wraps_scan_error (d : Dao) (account : String) (ptr : Nat) :
    ((d.GetUserInfo account ptr).err = none ↔
      (d.db.QueryRowScan ⟨"select username from t_user where account=?", account⟩).2 = none) ∧
    Wrap ptr none "dao: GetUserInfo" = none ∧
    (∀ e, (d.db.QueryRowScan ⟨"select username from t_user where account=?", account⟩).2 = some e →
      ∃ w, (d.GetUserInfo account ptr).err = some w ∧
        w.Error = "dao: GetUserInfo: " ++ e.Error ∧
        (Is w e = true ↔ e.Comparable = true) ∧
        (∀ target, Is e target = true → Is w target = true) ∧
        (Is w ErrNoRows = Is e ErrNoRows)) ∧
    (∃ w, Wrap ptr (some ErrNoRows) "dao: GetUserInfo" = some w ∧ Is w ErrNoRows = true) := by
  refine ⟨?_, rfl, ?_, ?_⟩
  · cases hq : (d.db.QueryRowScan ⟨"select username from t_user where account=?", account⟩).2 <;>
      simp [Dao.GetUserInfo, Wrap, hq]
  · intro e he
    refine ⟨.withMessage ptr e "dao: GetUserInfo", ?_, Error_withMessage_dao e ptr, ?_,
      fun target h => Is_withMessage_of_Is e target ptr _ h, Is_withMessage_ErrNoRows e ptr _⟩
    · simp [Dao.GetUserInfo, Wrap, he]
    · constructor
      · intro h
        cases e with
        | uncomparable text => rw [Is_uncomparable] at h; exact absurd h (by simp)
        | New p t => rfl
        | withMessage p c m => rfl
      · intro h
        exact Is_withMessage_of_Is e e ptr _ (Is_self e h)
  · exact ⟨_, rfl, Is_withMessage_of_Is _ _ _ _ (Is_self _ rfl)⟩

/-- C10: `DisplayUserName` writes exactly one body.  With a blank trimmed
account it is "read arg userAccount is blank" and nothing is sent to the
database; otherwise one query is sent, with the trimmed account, and the body
is the scanned name when the scan error is nil, the "user is not exists"
line with the trimmed account when the scan error matches `sql.ErrNoRows`, and
the whole text of the wrapped error otherwise. -/
theorem DisplayUserName_response (h : UserHandler) (formValue : String) (ptr : Nat) :
    (h.DisplayUserName formValue ptr).written.length = 1 ∧
    (TrimSpace formValue = "" →
      (h.DisplayUserName formValue ptr).written = ["read arg userAccount is blank"] ∧
      (h.DisplayUserName formValue ptr).sent = []) ∧
    (TrimSpace formValue ≠ "" →
      (h.DisplayUserName formValue ptr).sent =
        [⟨"select username from t_user where account=?", TrimSpace formValue⟩] ∧
      ∀ name e,
        h.dao.db.QueryRowScan ⟨"select username from t_user where account=?", TrimSpace formValue⟩
          = (name, e) →
        (e = none → (h.DisplayUserName formValue ptr).written = [name]) ∧
        (∀ err, e = some err → Is err ErrNoRows = true →
          (h.DisplayUserName formValue ptr).written =
            ["user is not exists with account '" ++ TrimSpace formValue ++ "'"]) ∧
        (∀ err, e = some err → Is err ErrNoRows = false →
          (h.DisplayUserName formValue ptr).written = ["dao: GetUserInfo: " ++ err.Error])) := by
  refine ⟨?_, ?_, ?_⟩
  · unfold UserHandler.DisplayUserName
    simp only []
    split
    · rfl
    · split
      · rfl
      · split <;> rfl
  · intro hb
    simp [UserHandler.DisplayUserName, hb]
  · intro hb
    refine ⟨?_, ?_⟩
    · unfold UserHandler.DisplayUserName
      simp only [hb, if_false]
      split
      · rfl
      · split <;> rfl
    · intro name e hq
      refine ⟨?_, ?_, ?_⟩
      · intro he
        subst he
        simp [UserHandler.DisplayUserName, hb, Dao.GetUserInfo, hq, Wrap]
      · intro err he hn
        subst he
        simp [UserHandler.DisplayUserName, hb, Dao.GetUserInfo, hq, Wrap,
          Is_withMessage_ErrNoRows, hn]
      · intro err he hn
        subst he
        simp [UserHandler.DisplayUserName, hb, Dao.GetUserInfo, hq, Wrap,
          Is_withMessage_ErrNoRows, hn, Error_withMessage_dao]

end week02

namespace week03

/-! ## The invariant of the transition system -/

theorem Context.cancel_Done (ctx : Context) : ctx.cancel.Done = true := by
  obtain ⟨e⟩ := ctx
  cases e <;> rfl

theorem Context.cancel_err (ctx : Context) (h : ctx.err = none ∨ ctx.err = some .Canceled) :
    ctx.cancel.err = some .Canceled := by
  obtain ⟨e⟩ := ctx
  rcases h with h | h <;> simp at h <;> subst h <;> rfl

theorem Group.taskReturn_wg (g : Group) (r : Option Err) : (g.taskReturn r).wg = g.wg - 1 := by
  obtain ⟨wg, err, ctx⟩ := g
  cases r <;> cases err <;> rfl

theorem Group.taskReturn_err (g : Group) (r : Option Err) :
    (g.taskReturn r).err = g.err.or r := by
  obtain ⟨wg, err, ctx⟩ := g
  cases r <;> cases err <;> rfl

theorem Group.taskReturn_ctx (g : Group) (r : Option Err) :
    (g.taskReturn r).ctx = if g.err = none ∧ r.isSome = true then g.ctx.cancel else g.ctx := by
  obtain ⟨wg, err, ctx⟩ := g
  cases r <;> cases err <;> simp [Group.taskReturn]

theorem firstError_or (l : List (Option Err)) (r : Option Err) :
    firstError (l ++ [r]) = (firstError l).or r := by
  induction l with
  | nil => cases r <;> rfl
  | cons a l ih => cases a <;> simp [firstError, ih]


theorem inv_return1 (s : State) (h : Inv s) (e : Err) (hpc : s.t1.isReturned = false) :
    Inv ({ s with t1 := .returned (some e) }.taskReturn .server (some e)) := by
  obtain ⟨h1, h2, h3, h4, h5, h6, h7, h8, h9, h10, h11, h12, h13⟩ := h
  have hc := Context.cancel_Done s.g.ctx
  have hc2 := Context.cancel_err s.g.ctx h2
  have hwg : 0 < s.g.wg := by
    rw [h8]; simp [State.pending, hpc]
  have hn : s.result .server = none := by
    cases ht : s.t1 <;> simp_all [State.result, ServerPc.isReturned]
  constructor
  all_goals
    simp only [State.taskReturn, Group.taskReturn_wg, Group.taskReturn_err, Group.taskReturn_ctx,
      firstError_or, List.map_append, List.map_cons, List.map_nil,
      List.length_append, List.length_singleton, List.mem_append, List.mem_singleton]
  case cancelled =>
    cases he : s.g.err <;> simp [he, hc] at h1 ⊢
    exact h1
  case canceledErr =>
    cases he : s.g.err <;> simp [he, hc2]
    exact h2
  case closedBy =>
    cases he : s.g.err <;> simp
  case r1 =>
    cases he : s.g.err <;> simp
  case r2 =>
    intro r hr
    rcases h5 r hr with h | h
    · exact Or.inl h
    · right; cases he : s.g.err <;> simp [h.1]
  case r3 =>
    intro r hr
    refine ⟨(h6 r hr).1, ?_⟩
    cases he : s.g.err <;> simp
  case shut => exact h7
  case wg =>
    rw [h8]
    unfold State.pending
    simp only [hpc]
    simp [ServerPc.isReturned]
    omega
  case out =>
    intro r hr
    have := (h9 r hr).2
    omega
  case serving => simp
  case hist => rw [h11]
  case histMem =>
    intro t r
    rw [h12]
    cases t
    · rw [hn]
      simp [State.result, eq_comm]
    · simp [State.result]
    · simp [State.result]
  case histLen => omega

theorem inv_return2 (s : State) (h : Inv s) (r : Option Err)
    (c : ShutdownCase) (hr : r = none ∨ r = some .DeadlineExceeded) (hpc : s.t2 = .draining c) :
    Inv ({ s with t2 := .returned r }.taskReturn .shutdown r) := by
  obtain ⟨h1, h2, h3, h4, h5, h6, h7, h8, h9, h10, h11, h12, h13⟩ := h
  have hc := Context.cancel_Done s.g.ctx
  have hc2 := Context.cancel_err s.g.ctx h2
  have hwg : 0 < s.g.wg := by
    rw [h8]; simp [State.pending, hpc, ShutdownPc.isReturned]
  have hn : s.result .shutdown = none := by
    simp [State.result, hpc]
  constructor
  all_goals
    simp only [State.taskReturn, Group.taskReturn_wg, Group.taskReturn_err, Group.taskReturn_ctx,
      firstError_or, List.map_append, List.map_cons, List.map_nil,
      List.length_append, List.length_singleton, List.mem_append, List.mem_singleton]
  case cancelled =>
    cases he : s.g.err <;> rcases hr with hr | hr <;> subst hr <;> simp [he, hc] at h1 ⊢
    all_goals exact h1
  case canceledErr =>
    cases he : s.g.err <;> rcases hr with hr | hr <;> subst hr <;> simp [he, hc2]
    all_goals exact h2
  case closedBy =>
    cases he : s.g.err <;> rcases hr with hr | hr <;> subst hr <;> simp [he] at h3 ⊢
    exact h3
  case r1 =>
    intro r' hr'
    refine ⟨(h4 r' hr').1, ?_⟩
    have := (h4 r' hr').2
    cases he : s.g.err <;> simp [he] at this ⊢
  case r2 =>
    intro r' hr'
    simp at hr'
    subst hr'
    rcases hr with hr | hr
    · exact Or.inl hr
    · right; subst hr; cases he : s.g.err <;> simp
  case r3 =>
    intro r' hr'
    refine ⟨(h6 r' hr').1, ?_⟩
    have := (h6 r' hr').2
    cases he : s.g.err <;> simp [he] at this ⊢
  case shut =>
    simp [hpc] at h7
    simp [h7]
  case wg =>
    rw [h8]
    simp [State.pending, hpc, ShutdownPc.isReturned]
  case out =>
    intro r hr
    have := (h9 r hr).2
    omega
  case serving => exact h10
  case hist => rw [h11]
  case histMem =>
    intro t r'
    rw [h12]
    cases t
    · simp [State.result]
    · rw [hn]
      simp [State.result, eq_comm]
    · simp [State.result]
  case histLen => omega

theorem inv_return3 (s : State) (h : Inv s) (e : Err) (c : Option Signal)
    (hpc : s.t3 = .selecting) :
    Inv ({ s with t3 := .returned (some e), c := c }.taskReturn .signal (some e)) := by
  obtain ⟨h1, h2, h3, h4, h5, h6, h7, h8, h9, h10, h11, h12, h13⟩ := h
  have hc := Context.cancel_Done s.g.ctx
  have hc2 := Context.cancel_err s.g.ctx h2
  have hwg : 0 < s.g.wg := by
    rw [h8]; simp [State.pending, hpc, SignalPc.isReturned]
  have hn : s.result .signal = none := by
    simp [State.result, hpc]
  constructor
  all_goals
    simp only [State.taskReturn, Group.taskReturn_wg, Group.taskReturn_err, Group.taskReturn_ctx,
      firstError_or, List.map_append, List.map_cons, List.map_nil,
      List.length_append, List.length_singleton, List.mem_append, List.mem_singleton]
  case cancelled =>
    cases he : s.g.err <;> simp [he, hc] at h1 ⊢
    exact h1
  case canceledErr =>
    cases he : s.g.err <;> simp [he, hc2]
    exact h2
  case closedBy =>
    cases he : s.g.err <;> simp
  case r1 =>
    intro r hr
    refine ⟨(h4 r hr).1, ?_⟩
    cases he : s.g.err <;> simp
  case r2 =>
    intro r hr
    rcases h5 r hr with h | h
    · exact Or.inl h
    · right; cases he : s.g.err <;> simp [h.1]
  case r3 =>
    cases he : s.g.err <;> simp
  case shut => exact h7
  case wg =>
    rw [h8]
    simp [State.pending, hpc, SignalPc.isReturned]
  case out =>
    intro r hr
    have := (h9 r hr).2
    omega
  case serving => exact h10
  case hist => rw [h11]
  case histMem =>
    intro t r
    rw [h12]
    cases t
    · simp [State.result]
    · simp [State.result]
    · rw [hn]
      simp [State.result, eq_comm]
  case histLen => omega

theorem inv_init : Inv init := by
  constructor <;> simp [init, WithContext, Group.Go, Context.Done, State.pending, ServerPc.isReturned, ShutdownPc.isReturned, SignalPc.isReturned, firstError, State.result]
  intro t r
  cases t <;> simp


theorem inv_step (s s' : State) (a : Action) (h : Inv s) (hs : step s a = some s') : Inv s' := by
  cases a
  case listenFail text =>
    simp only [step] at hs
    split at hs <;> simp at hs
    next ht =>
    subst hs
    exact inv_return1 s h (.listen text) (by simp [ht, ServerPc.isReturned])
  case acceptFail text =>
    simp only [step] at hs
    split at hs <;> simp at hs
    next ht _ =>
    subst hs
    exact inv_return1 s h (.accept text) (by simp [ht, ServerPc.isReturned])
  case serverClosed =>
    simp only [step] at hs
    split at hs <;> simp at hs
    · next ht _ =>
      subst hs
      exact inv_return1 s h .ErrServerClosed (by simp [ht, ServerPc.isReturned])
    · next ht _ =>
      subst hs
      exact inv_return1 s h .ErrServerClosed (by simp [ht, ServerPc.isReturned])
  case shutdownNil =>
    simp only [step] at hs
    split at hs <;> simp at hs
    next c ht _ =>
    subst hs
    exact inv_return2 s h none c (Or.inl rfl) ht
  case shutdownTimeout =>
    simp only [step] at hs
    split at hs <;> simp at hs
    next c ht =>
    subst hs
    exact inv_return2 s h _ c (Or.inr rfl) ht
  case g3Done =>
    simp only [step] at hs
    split at hs <;> simp at hs
    next ht hd =>
    subst hs
    obtain ⟨e, he⟩ := Option.isSome_iff_exists.mp hd
    simp only [g3, he]
    have := inv_return3 s h e s.c ht
    exact this
  case g3Sig =>
    simp only [step] at hs
    split at hs <;> simp at hs
    next sig ht hc =>
    subst hs
    exact inv_return3 s h _ none ht
  case listenOk =>
    simp only [step] at hs
    split at hs <;> simp at hs
    next ht _ =>
    subst hs
    obtain ⟨h1, h2, h3, h4, h5, h6, h7, h8, h9, h10, h11, h12, h13⟩ := h
    refine ⟨h1, h2, h3, ?_, h5, h6, h7, ?_, h9, ?_, h11, ?_, h13⟩
    · simp
    · rw [h8]; simp [State.pending, ht, ServerPc.isReturned]
    · simp
    · intro t r
      rw [h12]
      cases t <;> simp [State.result, ht]
  case request =>
    simp only [step] at hs
    split at hs <;> simp at hs
    next ht _ =>
    subst hs
    obtain ⟨h1, h2, h3, h4, h5, h6, h7, h8, h9, h10, h11, h12, h13⟩ := h
    refine ⟨h1, h2, h3, h4, h5, h6, h7, h8, h9, ?_, h11, h12, h13⟩
    simp [ht]
  case g2Done =>
    simp only [step] at hs
    split at hs <;> simp at hs
    next ht _ =>
    subst hs
    obtain ⟨h1, h2, h3, h4, h5, h6, h7, h8, h9, h10, h11, h12, h13⟩ := h
    refine ⟨h1, h2, h3, h4, ?_, h6, ?_, ?_, h9, h10, h11, ?_, h13⟩
    · simp
    · simp
    · rw [h8]; simp [State.pending, ht, ShutdownPc.isReturned]
    · intro t r
      rw [h12]
      cases t <;> simp [State.result, ht]
  case g2Recv =>
    simp only [step] at hs
    split at hs <;> simp at hs
    next n ht hn =>
    subst hs
    obtain ⟨h1, h2, h3, h4, h5, h6, h7, h8, h9, h10, h11, h12, h13⟩ := h
    refine ⟨h1, h2, h3, h4, ?_, h6, ?_, ?_, h9, ?_, h11, ?_, h13⟩
    · simp
    · simp
    · rw [h8]; simp [State.pending, ht, ShutdownPc.isReturned]
    · intro _
      exact h10 (by omega)
    · intro t r
      rw [h12]
      cases t <;> simp [State.result, ht]
  case signal sig =>
    simp only [step] at hs
    split at hs <;> simp at hs <;> subst hs
    · obtain ⟨h1, h2, h3, h4, h5, h6, h7, h8, h9, h10, h11, h12, h13⟩ := h
      exact ⟨h1, h2, h3, h4, h5, h6, h7, h8, h9, h10, h11, h12, h13⟩
    · exact h
  case wait =>
    simp only [step] at hs
    split at hs <;> simp at hs
    next r g ho hw =>
    subst hs
    obtain ⟨h1, h2, h3, h4, h5, h6, h7, h8, h9, h10, h11, h12, h13⟩ := h
    unfold Group.Wait at hw
    split at hw <;> simp at hw
    next hz =>
    obtain ⟨hr, hg⟩ := hw
    subst hr hg
    refine ⟨?_, ?_, ?_, h4, h5, h6, h7, ?_, ?_, h10, h11, h12, ?_⟩
    · intro _; exact Context.cancel_Done _
    · right; exact Context.cancel_err _ h2
    · simp
    · exact h8
    · simp [hz]
    · exact h13

/-- The invariant holds in every state that a run of `main` reaches. -/
theorem inv_run (acts : List Action) (s s' : State) (h : Inv s) (hr : run s acts = some s') :
    Inv s' := by
  induction acts generalizing s with
  | nil =>
    simp [run] at hr
    subst hr
    exact h
  | cons a acts ih =>
    simp only [run] at hr
    cases hs : step s a with
    | none => simp [hs] at hr
    | some s1 =>
      simp [hs] at hr
      exact ih s1 (inv_step s s1 a h hs) hr

/-- Once `g.Wait()` has returned, all three tasks have returned. -/
theorem inv_out_returned (s : State) (h : Inv s) (r : Option Err) (ho : s.out = some r) :
    s.t1.isReturned = true ∧ s.t2.isReturned = true ∧ s.t3.isReturned = true := by
  have hw := h.wg
  rw [(h.out r ho).2] at hw
  unfold State.pending at hw
  cases h1 : s.t1.isReturned <;> cases h2 : s.t2.isReturned <;> cases h3 : s.t3.isReturned <;>
    simp [h1, h2, h3] at hw ⊢

/-- A task can take a step only while `g.Wait()` has not returned. -/
theorem inv_out_none (s : State) (h : Inv s)
    (hp : s.t1.isReturned = false ∨ s.t2.isReturned = false ∨ s.t3.isReturned = false) :
    s.out = none := by
  cases ho : s.out with
  | none => rfl
  | some r =>
    have := inv_out_returned s h r ho
    rcases hp with hp | hp | hp <;> simp [hp] at this

/-! ## C1: what `g.Wait()` returns -/

theorem afterReturns_err (g : Group) (rs : List (Option Err)) :
    (g.afterReturns rs).err = g.err.or (firstError rs) := by
  induction rs generalizing g with
  | nil => cases h : g.err <;> simp [Group.afterReturns, firstError, h]
  | cons r rs ih =>
    have := ih (g.taskReturn r)
    simp only [Group.afterReturns, List.foldl_cons] at this ⊢
    rw [this, Group.taskReturn_err]
    cases g.err <;> cases r <;> simp [firstError]

theorem afterReturns_wg (g : Group) (rs : List (Option Err)) :
    (g.afterReturns rs).wg = g.wg - rs.length := by
  induction rs generalizing g with
  | nil => simp [Group.afterReturns]
  | cons r rs ih =>
    have := ih (g.taskReturn r)
    simp only [Group.afterReturns, List.foldl_cons] at this ⊢
    rw [this, Group.taskReturn_wg]
    simp
    omega

/-- A step never replaces an error that the group keeps. -/
theorem step_err_stable (s s' : State) (a : Action) (e : Err) (hs : step s a = some s')
    (he : s.g.err = some e) : s'.g.err = some e := by
  cases a
  case wait =>
    simp only [step] at hs
    split at hs <;> simp at hs
    next r g ho hw =>
    unfold Group.Wait at hw
    split at hw <;> simp at hw
    obtain ⟨-, hg⟩ := hw
    subst hs hg
    exact he
  all_goals
    simp only [step] at hs
    split at hs <;> simp at hs <;> subst hs <;>
      simp [State.taskReturn, Group.taskReturn_err, he]

/-- C1: for every order in which the three tasks of `main` return and for
every result, the group keeps the first non-nil result (nil when there is
none), `g.Wait()` is blocked while fewer than three tasks have returned and
returns that kept error once all three have; an error that the group keeps
is not replaced by a later result.  In every run of `main`: the kept error is
the first error of the history of returns, no step replaces it, the history
lists exactly the tasks that have returned, and when `g.Wait()` has returned
`r`, all three tasks have returned and `r` is the first error of the
history. -/
theorem Wait_returns_first_error (acts : List Action) (s : State)
    (h : run init acts = some s) :
    (∀ rs : List (Option Err),
      (init.g.afterReturns rs).err = firstError rs ∧
      (rs.length < 3 → (init.g.afterReturns rs).Wait = none) ∧
      (rs.length = 3 →
        (init.g.afterReturns rs).Wait.map Prod.fst = some (firstError rs))) ∧
    (∀ (g : Group) (e : Err) (r : Option Err), g.err = some e → (g.taskReturn r).err = some e) ∧
    s.g.err = firstError (s.history.map Prod.snd) ∧
    (∀ a s' e, step s a = some s' → s.g.err = some e → s'.g.err = some e) ∧
    (∀ t r, (t, r) ∈ s.history ↔ s.result t = some r) ∧
    (∀ r, s.out = some r →
      r = firstError (s.history.map Prod.snd) ∧ s.history.length = 3 ∧
      s.t1.isReturned = true ∧ s.t2.isReturned = true ∧ s.t3.isReturned = true) := by
  have hi := inv_run acts init s inv_init h
  refine ⟨?_, ?_, hi.hist, ?_, hi.histMem, ?_⟩
  · intro rs
    refine ⟨?_, ?_, ?_⟩
    · rw [afterReturns_err]; rfl
    · intro hl
      have hw := afterReturns_wg init.g rs
      have : init.g.wg = 3 := rfl
      rw [this] at hw
      unfold Group.Wait
      split
      · next h0 => omega
      · rfl
    · intro hl
      have hw := afterReturns_wg init.g rs
      have : init.g.wg = 3 := rfl
      rw [this, hl] at hw
      have he := afterReturns_err init.g rs
      unfold Group.Wait
      split
      · simp [he]; rfl
      · next h0 => simp [h0] at hw
  · intro g e r he
    rw [Group.taskReturn_err, he]
    rfl
  · intro a s' e hs he
    exact step_err_stable s s' a e hs he
  · intro r hr
    have ho := hi.out r hr
    have hw := hi.wg
    have hl := hi.histLen
    rw [ho.2] at hw hl
    refine ⟨by rw [ho.1]; exact hi.hist, by omega, ?_⟩
    unfold State.pending at hw
    cases h1 : s.t1.isReturned <;> cases h2 : s.t2.isReturned <;> cases h3 : s.t3.isReturned <;>
      simp [h1, h2, h3] at hw ⊢

/-- C1, at a run: the manual shutdown, where the second task returns nil
first; `g.Wait()` returns the error of the first task, after three returns. -/
theorem Wait_returns_first_error_witness :
    ∃ s, run init [.listenOk, .request, .g2Recv, .shutdownNil, .serverClosed, .g3Done, .wait]
        = some s ∧
      s.history = [(.shutdown, none), (.server, some .ErrServerClosed),
                   (.signal, some .Canceled)] ∧
      s.out = some (some .ErrServerClosed) ∧ s.history.length = 3 :=
  ⟨_, rfl, rfl, rfl,
    ((Wait_returns_first_error
      [.listenOk, .request, .g2Recv, .shutdownNil, .serverClosed, .g3Done, .wait] _ rfl).2.2.2.2.2
        _ rfl).2.1⟩

/-! ## C2: the first return and the context -/

/-- C2: the code does not do what the claim, and the comment of the source on
the second task, say.  In this run the hand-off of `/shutdown` is received,
`Shutdown` returns nil and the second task is the first to return; after its
return the shared context is still open (`ctx.Done()` is not ready,
`ctx.Err()` is nil), the third task cannot leave its `select`, and the group
keeps no error. -/
theorem first_return_nil_keeps_ctx_open :
    ∃ s, run init [.listenOk, .request, .g2Recv, .shutdownNil] = some s ∧
      s.history = [(.shutdown, none)] ∧ s.t2 = .returned none ∧
      s.t1 = .serving ∧ s.t3 = .selecting ∧
      s.g.ctx.Done = false ∧ s.g.ctx.err = none ∧ s.g.err = none ∧
      step s .g3Done = none ∧ step s .g3Sig = none :=
  ⟨_, rfl, rfl, rfl, rfl, rfl, rfl, rfl, rfl, rfl, rfl⟩

/-- Which returns close the context: in every run of `main`, a task that
returns a non-nil error leaves the shared context closed; a task that returns
nil (only the second task can) leaves the context as it was.  So the first
task to return closes the context exactly when it returns an error. -/
theorem return_closes_ctx_iff_error (acts : List Action) (s s' : State) (a : Action)
    (t : TaskId) (r : Option Err) (h : run init acts = some s) (hs : step s a = some s')
    (hh : s'.history = s.history ++ [(t, r)]) :
    (r.isSome = true → s'.g.ctx.Done = true) ∧
    (r = none → s'.g.ctx = s.g.ctx ∧ t = .shutdown) ∧
    (s.history = [] → (s'.g.ctx.Done = true ↔ r.isSome = true)) := by
  have hi := inv_run acts init s inv_init h
  have hi' := inv_step s s' a hi hs
  have key : s'.g = s.g.taskReturn r ∧ (r = none → t = .shutdown) ∧ s.out = none := by
    cases a
    case wait =>
      simp only [step] at hs
      split at hs <;> simp at hs
      subst hs
      simp at hh
    case g3Done =>
      simp only [step] at hs
      split at hs <;> simp at hs
      next ht hd =>
      subst hs
      simp [State.taskReturn] at hh
      obtain ⟨ht', hr'⟩ := hh
      subst hr'
      refine ⟨rfl, ?_, inv_out_none s hi (by simp [ht, SignalPc.isReturned])⟩
      intro hn
      simp [g3, Context.Done] at hn hd
      simp [hn] at hd
    all_goals
      simp only [step] at hs
      split at hs <;> simp at hs <;> subst hs <;> simp [State.taskReturn] at hh
    all_goals
      obtain ⟨ht', hr'⟩ := hh
      subst hr' ht'
      refine ⟨rfl, by simp [g1, g2, g3], inv_out_none s hi ?_⟩
      simp [ServerPc.isReturned, ShutdownPc.isReturned, SignalPc.isReturned, *]
  obtain ⟨hg, ht, ho⟩ := key
  refine ⟨?_, ?_, ?_⟩
  · intro hr
    apply hi'.cancelled
    rw [hg, Group.taskReturn_err]
    cases s.g.err <;> simp [hr]
  · intro hr
    refine ⟨?_, ht hr⟩
    rw [hg, Group.taskReturn_ctx]
    simp [hr]
  · intro hnil
    have he : s.g.err = none := by
      rw [hi.hist, hnil]; rfl
    have hopen : s.g.ctx.Done = false := by
      cases hd : s.g.ctx.Done with
      | false => rfl
      | true =>
        have := hi.closedBy ho hd
        simp [he] at this
    rw [hg, Group.taskReturn_ctx]
    cases r with
    | none => simp [hopen]
    | some e => simp [he, Context.cancel_Done]

/-! ## C3: one exits, all exit -/

/-- No step raises the number of steps that remain, and a step the program
takes by itself lowers it. -/
theorem step_remaining (s s' : State) (a : Action) (hs : step s a = some s') :
    s'.remaining + (if a.internal = true then 1 else 0) ≤ s.remaining := by
  cases a <;> simp only [step] at hs <;> split at hs <;> simp at hs <;> subst hs <;>
    simp [State.remaining, State.taskReturn, Action.internal, *] <;> omega

/-- A task that has returned stays returned. -/
theorem step_someReturned (s s' : State) (a : Action) (hs : step s a = some s')
    (h : s.someReturned = true) : s'.someReturned = true := by
  cases a <;> simp only [step] at hs <;> split at hs <;> simp at hs <;> subst hs <;>
    simp_all [State.someReturned, State.taskReturn, ServerPc.isReturned, ShutdownPc.isReturned,
      SignalPc.isReturned]

/-- After a first return, either everything has exited or the program has a
step that it takes by itself. -/
theorem progress (s : State) (hi : Inv s) (h : s.someReturned = true) :
    s.allExited = true ∨ ∃ a, a.internal = true ∧ (step s a).isSome = true := by
  have hdone : s.g.err.isSome = true → s.g.ctx.Done = true := hi.cancelled
  cases h2 : s.t2 with
  | draining c =>
    right
    exact ⟨.shutdownTimeout, rfl, by simp [step, h2]⟩
  | selecting =>
    right
    have hd : s.g.ctx.Done = true := by
      apply hdone
      cases h1 : s.t1 with
      | returned r => exact (hi.r1 r h1).2
      | starting =>
        cases h3 : s.t3 with
        | returned r => exact (hi.r3 r h3).2
        | selecting =>
          simp [State.someReturned, h1, h2, h3, ServerPc.isReturned, ShutdownPc.isReturned,
            SignalPc.isReturned] at h
      | serving =>
        cases h3 : s.t3 with
        | returned r => exact (hi.r3 r h3).2
        | selecting =>
          simp [State.someReturned, h1, h2, h3, ServerPc.isReturned, ShutdownPc.isReturned,
            SignalPc.isReturned] at h
    exact ⟨.g2Done, rfl, by simp [step, h2, hd]⟩
  | returned r2 =>
    have hsh : s.inShutdown = true := hi.shut.mpr (by simp [h2])
    cases h1 : s.t1 with
    | starting =>
      right
      exact ⟨.serverClosed, rfl, by simp [step, h1, hsh]⟩
    | serving =>
      right
      exact ⟨.serverClosed, rfl, by simp [step, h1, hsh]⟩
    | returned r1 =>
      have hd : s.g.ctx.Done = true := hdone (hi.r1 r1 h1).2
      cases h3 : s.t3 with
      | selecting =>
        right
        exact ⟨.g3Done, rfl, by simp [step, h3, hd]⟩
      | returned r3 =>
        cases ho : s.out with
        | some r =>
          left
          simp [State.allExited, h1, h2, h3, ho, ServerPc.isReturned, ShutdownPc.isReturned,
            SignalPc.isReturned]
        | none =>
          right
          have hw : s.g.wg = 0 := by
            rw [hi.wg]
            simp [State.pending, h1, h2, h3, ServerPc.isReturned, ShutdownPc.isReturned,
              SignalPc.isReturned]
          exact ⟨.wait, rfl, by simp [step, ho, Group.Wait, hw]⟩

/-- Along a run the steps the program takes by itself are paid for by the
number of steps that remain. -/
theorem run_remaining (acts : List Action) (s s' : State) (hr : run s acts = some s') :
    (acts.filter Action.internal).length + s'.remaining ≤ s.remaining := by
  induction acts generalizing s with
  | nil =>
    simp [run] at hr
    subst hr
    simp
  | cons a acts ih =>
    simp only [run] at hr
    cases hs : step s a with
    | none => simp [hs] at hr
    | some s1 =>
      simp [hs] at hr
      have h1 := ih s1 hr
      have h2 := step_remaining s s1 a hs
      cases ha : a.internal <;> simp [List.filter, ha] at h2 ⊢ <;> omega

theorem run_someReturned (acts : List Action) (s s' : State) (hr : run s acts = some s')
    (h : s.someReturned = true) : s'.someReturned = true := by
  induction acts generalizing s with
  | nil =>
    simp [run] at hr
    subst hr
    exact h
  | cons a acts ih =>
    simp only [run] at hr
    cases hs : step s a with
    | none => simp [hs] at hr
    | some s1 =>
      simp [hs] at hr
      exact ih s1 hr (step_someReturned s s1 a hs h)

/-- After a first return the program can finish by steps of its own. -/
theorem can_finish (n : Nat) (s : State) (hi : Inv s) (h : s.someReturned = true)
    (hn : s.remaining ≤ n) :
    ∃ acts s', (∀ a ∈ acts, a.internal = true) ∧ run s acts = some s' ∧
      s'.allExited = true := by
  induction n generalizing s with
  | zero =>
    rcases progress s hi h with hx | ⟨a, ha, hs⟩
    · exact ⟨[], s, by simp, rfl, hx⟩
    · obtain ⟨s1, hs⟩ := Option.isSome_iff_exists.mp hs
      have := step_remaining s s1 a hs
      simp [ha] at this
      omega
  | succ n ih =>
    rcases progress s hi h with hx | ⟨a, ha, hs⟩
    · exact ⟨[], s, by simp, rfl, hx⟩
    · obtain ⟨s1, hs⟩ := Option.isSome_iff_exists.mp hs
      have hdec := step_remaining s s1 a hs
      simp [ha] at hdec
      obtain ⟨acts, s', hall, hrun, hex⟩ :=
        ih s1 (inv_step s s1 a hi hs) (step_someReturned s s1 a hs h) (by omega)
      refine ⟨a :: acts, s', ?_, ?_, hex⟩
      · intro b hb
        rcases List.mem_cons.mp hb with hb | hb
        · subst hb; exact ha
        · exact hall b hb
      · simp [run, hs, hrun]

/-- C3: in every run of `main`, once one of the three tasks has returned,
(1) the state is never stuck: either all three tasks and `g.Wait()` have
returned, or a step that the program takes by itself is possible;
(2) at most five such steps follow, whatever else happens;
(3) a later state in which no such step is possible has all three tasks and
`g.Wait()` returned; (4) the program can reach such a state by steps of its
own. -/
theorem one_exits_all_exit (acts : List Action) (s : State) (h : run init acts = some s)
    (h1 : s.someReturned = true) :
    (s.allExited = true ∨ ∃ a, a.internal = true ∧ (step s a).isSome = true) ∧
    (∀ acts' s', run s acts' = some s' →
      (acts'.filter Action.internal).length + s'.remaining ≤ s.remaining) ∧
    s.remaining ≤ 5 ∧
    (∀ acts' s', run s acts' = some s' → (∀ a, a.internal = true → step s' a = none) →
      s'.allExited = true) ∧
    (∃ acts' s', (∀ a ∈ acts', a.internal = true) ∧ run s acts' = some s' ∧
      s'.allExited = true) := by
  have hi := inv_run acts init s inv_init h
  refine ⟨progress s hi h1, fun acts' s' hr => run_remaining acts' s s' hr, ?_, ?_,
    can_finish s.remaining s hi h1 (Nat.le_refl _)⟩
  · unfold State.someReturned at h1
    unfold State.remaining
    cases h1' : s.t1 <;> cases h2' : s.t2 <;> cases h3' : s.t3 <;> cases ho : s.out <;>
      simp [h1', h2', h3', ServerPc.isReturned, ShutdownPc.isReturned,
        SignalPc.isReturned] at h1 ⊢
  · intro acts' s' hr hstuck
    have hi' := inv_run acts' s s' hi hr
    rcases progress s' hi' (run_someReturned acts' s s' hr h1) with hx | ⟨a, ha, hs⟩
    · exact hx
    · rw [hstuck a ha] at hs
      simp at hs

/-- C3, at a run: after a signal made the third task return, the other two
tasks and `g.Wait()` return by steps of the program alone. -/
theorem one_exits_all_exit_witness :
    ∃ s, run init [.listenOk, .signal .SIGTERM, .g3Sig] = some s ∧ s.someReturned = true ∧
      s.remaining ≤ 5 :=
  ⟨_, rfl, rfl,
    (one_exits_all_exit [.listenOk, .signal .SIGTERM, .g3Sig] _ rfl rfl).2.2.1⟩

/-! ## C4: the manual shutdown, end to end -/

/-- While no `signal` step is taken, the channel `c` stays empty. -/
theorem run_no_signal (acts : List Action) (s s' : State) (hr : run s acts = some s')
    (hc : s.c = none) (hn : ∀ sig, Action.signal sig ∉ acts) : s'.c = none := by
  induction acts generalizing s with
  | nil =>
    simp [run] at hr
    subst hr
    exact hc
  | cons a acts ih =>
    simp only [run] at hr
    cases hs : step s a with
    | none => simp [hs] at hr
    | some s1 =>
      simp [hs] at hr
      refine ih s1 hr ?_ (fun sig hm => hn sig (List.mem_cons_of_mem _ hm))
      cases a
      case signal sig => exact absurd (List.mem_cons_self _ _) (hn sig)
      all_goals
        simp only [step] at hs
        split at hs <;> simp at hs <;> subst hs <;> simp [State.taskReturn, hc]

/-- What one step keeps true after `server.Shutdown` was called, when
`Shutdown` does not time out and the signals that arrive are among `S`:
the kept error is nil, `http.ErrServerClosed` or the error of a signal of
`S`, and a signal waiting in `c` is one of `S`. -/
theorem manual_step (S : Signal → Prop) (s s' : State) (a : Action) (hi : Inv s)
    (hsh : s.inShutdown = true)
    (herr : s.g.err = none ∨ s.g.err = some .ErrServerClosed ∨
      ∃ sig, S sig ∧ s.g.err = some (.Errorf ("get os signal: " ++ sig.String)))
    (hc : ∀ sig, s.c = some sig → S sig) (ht1 : s.t1 ≠ .starting)
    (hs : step s a = some s') (ha : a ≠ .shutdownTimeout) (hS : ∀ sig, a = .signal sig → S sig) :
    s'.inShutdown = true ∧
    (s'.g.err = none ∨ s'.g.err = some .ErrServerClosed ∨
      ∃ sig, S sig ∧ s'.g.err = some (.Errorf ("get os signal: " ++ sig.String))) ∧
    (∀ sig, s'.c = some sig → S sig) ∧ s'.t1 ≠ .starting := by
  have hor : ∀ e : Err, (e = .ErrServerClosed ∨
        ∃ sig, S sig ∧ e = .Errorf ("get os signal: " ++ sig.String)) →
      (s.g.err.or (some e) = none ∨ s.g.err.or (some e) = some .ErrServerClosed ∨
        ∃ sig, S sig ∧ s.g.err.or (some e) = some (.Errorf ("get os signal: " ++ sig.String))) := by
    intro e he
    rcases herr with h | h | ⟨sig, hsig, h⟩
    · rw [h]
      rcases he with he | ⟨sig, hsig, he⟩
      · right; left; simp [he]
      · right; right; exact ⟨sig, hsig, by simp [he]⟩
    · right; left; simp [h]
    · right; right; exact ⟨sig, hsig, by simp [h]⟩
  cases a
  case shutdownTimeout => exact absurd rfl ha
  case listenFail text =>
    simp only [step] at hs
    exact absurd hs (by simp)
  case listenOk =>
    simp only [step] at hs
    split at hs <;> simp at hs
    next ht _ => exact absurd ht ht1
  case acceptFail text =>
    simp only [step] at hs
    split at hs <;> simp at hs
    next _ hf => simp [hsh] at hf
  case request =>
    simp only [step] at hs
    split at hs <;> simp at hs
    next _ hf => simp [hsh] at hf
  case serverClosed =>
    simp only [step] at hs
    split at hs <;> simp at hs <;> subst hs <;>
      simp only [State.taskReturn, Group.taskReturn_err, g1] <;>
      exact ⟨hsh, hor _ (Or.inl rfl), hc, by simp⟩
  case g2Done =>
    simp only [step] at hs
    split at hs <;> simp at hs
    subst hs
    exact ⟨rfl, herr, hc, ht1⟩
  case g2Recv =>
    simp only [step] at hs
    split at hs <;> simp at hs
    subst hs
    exact ⟨rfl, herr, hc, ht1⟩
  case shutdownNil =>
    simp only [step] at hs
    split at hs <;> simp at hs
    subst hs
    simp only [State.taskReturn, Group.taskReturn_err, g2]
    refine ⟨hsh, ?_, hc, ht1⟩
    simpa using herr
  case signal sig =>
    have hsig := hS sig rfl
    simp only [step] at hs
    split at hs <;> simp at hs <;> subst hs
    · refine ⟨hsh, herr, ?_, ht1⟩
      intro sig' h'
      simp at h'
      subst h'
      exact hsig
    · exact ⟨hsh, herr, hc, ht1⟩
  case g3Done =>
    simp only [step] at hs
    split at hs <;> simp at hs
    next ht hd =>
    subst hs
    simp only [State.taskReturn, Group.taskReturn_err, g3]
    refine ⟨hsh, ?_, hc, ht1⟩
    have ho := inv_out_none s hi (Or.inr (Or.inr (by simp [ht, SignalPc.isReturned])))
    have he := hi.closedBy ho hd
    obtain ⟨e, he⟩ := Option.isSome_iff_exists.mp he
    rw [he] at herr ⊢
    simpa using herr
  case g3Sig =>
    simp only [step] at hs
    split at hs <;> simp at hs
    next sig ht hsig =>
    subst hs
    simp only [State.taskReturn, Group.taskReturn_err, g3]
    exact ⟨hsh, hor _ (Or.inr ⟨sig, hc sig hsig, rfl⟩), by simp, ht1⟩
  case wait =>
    simp only [step] at hs
    split at hs <;> simp at hs
    next r g ho hw =>
    unfold Group.Wait at hw
    split at hw <;> simp at hw
    obtain ⟨-, hg⟩ := hw
    subst hs hg
    exact ⟨hsh, herr, hc, ht1⟩

/-- The facts of `manual_step` hold along a run. -/
theorem manual_run (S : Signal → Prop) (acts : List Action) (s s' : State) (hi : Inv s)
    (hsh : s.inShutdown = true)
    (herr : s.g.err = none ∨ s.g.err = some .ErrServerClosed ∨
      ∃ sig, S sig ∧ s.g.err = some (.Errorf ("get os signal: " ++ sig.String)))
    (hc : ∀ sig, s.c = some sig → S sig) (ht1 : s.t1 ≠ .starting)
    (hr : run s acts = some s') (ha : Action.shutdownTimeout ∉ acts)
    (hS : ∀ sig, Action.signal sig ∈ acts → S sig) :
    s'.g.err = none ∨ s'.g.err = some .ErrServerClosed ∨
      ∃ sig, S sig ∧ s'.g.err = some (.Errorf ("get os signal: " ++ sig.String)) := by
  induction acts generalizing s with
  | nil =>
    simp [run] at hr
    subst hr
    exact herr
  | cons a acts ih =>
    simp only [run] at hr
    cases hs : step s a with
    | none => simp [hs] at hr
    | some s1 =>
      simp [hs] at hr
      obtain ⟨h1, h2, h3, h4⟩ := manual_step S s s1 a hi hsh herr hc ht1 hs
        (fun h => ha (h ▸ List.mem_cons_self _ _))
        (fun sig h => hS sig (h ▸ List.mem_cons_self _ _))
      exact ih s1 (inv_step s s1 a hi hs) h1 h2 h3 h4 hr
        (fun h => ha (List.mem_cons_of_mem _ h))
        (fun sig h => hS sig (List.mem_cons_of_mem _ h))

/-- C4 as stated fails: the hand-off of `/shutdown` is received with no
signal and no failure before it, `Shutdown` returns nil, and `g.Wait()`
returns `http.ErrServerClosed`, the result of the first task, not nil. -/
theorem manual_shutdown_Wait_not_nil :
    ∃ s0 s, run init [.listenOk, .request] = some s0 ∧ s0.g.err = none ∧ s0.c = none ∧
      run s0 [.g2Recv, .shutdownNil, .serverClosed, .g3Done, .wait] = some s ∧
      s.t2 = .returned none ∧ s.t1 = .returned (some .ErrServerClosed) ∧
      s.out = some (some .ErrServerClosed) :=
  ⟨_, _, rfl, rfl, rfl, rfl, rfl, rfl, rfl⟩

/-- C4, amended: in every run of `main` in which the second task receives the
hand-off of `/shutdown` before any signal has arrived and before any task has
returned an error, and `Shutdown` does not time out, the value that
`g.Wait()` returns is not nil: it is `http.ErrServerClosed`, the result of the
first task, or the error of a signal that arrived after the hand-off. -/
theorem manual_shutdown_Wait (pre post : List Action) (s0 s : State) (r : Option Err)
    (h0 : run init pre = some s0) (hsig : ∀ sig, Action.signal sig ∉ pre)
    (herr : s0.g.err = none) (h1 : run s0 (.g2Recv :: post) = some s)
    (hdrain : Action.shutdownTimeout ∉ post) (hout : s.out = some r) :
    r = some .ErrServerClosed ∨
      ∃ sig, Action.signal sig ∈ post ∧ r = some (.Errorf ("get os signal: " ++ sig.String)) := by
  have hi0 := inv_run pre init s0 inv_init h0
  have hc0 := run_no_signal pre init s0 h0 rfl hsig
  simp only [run] at h1
  cases hs : step s0 .g2Recv with
  | none => simp [hs] at h1
  | some s1 =>
    simp [hs] at h1
    have hi1 := inv_step s0 s1 _ hi0 hs
    have hi := inv_run post s1 s hi1 h1
    simp only [step] at hs
    split at hs <;> simp at hs
    next n ht hn =>
    have ht1 : s0.t1 ≠ .starting := hi0.serving (by omega)
    subst hs
    have key := manual_run (fun sig => Action.signal sig ∈ post) post _ s hi1 rfl
      (Or.inl herr) (by simp [hc0]) ht1 h1 hdrain (fun sig h => h)
    have hr := (hi.out r hout).1
    have hret := (inv_out_returned s hi r hout).1
    have hsome : s.g.err.isSome = true := by
      cases h : s.t1 with
      | returned r1 => exact (hi.r1 r1 h).2
      | starting => simp [h, ServerPc.isReturned] at hret
      | serving => simp [h, ServerPc.isReturned] at hret
    rw [← hr] at key hsome
    rcases key with h | h | ⟨sig, hm, h⟩
    · simp [h] at hsome
    · exact Or.inl h
    · exact Or.inr ⟨sig, hm, h⟩

/-- C4, amended, at a run: the manual shutdown with no signal at all. -/
theorem manual_shutdown_Wait_witness :
    ∃ s0 s, run init [.listenOk, .request] = some s0 ∧
      run s0 [.g2Recv, .shutdownNil, .serverClosed, .g3Done, .wait] = some s ∧
      (s.out = some (some .ErrServerClosed) ∨
        ∃ sig, Action.signal sig ∈ [Action.shutdownNil, .serverClosed, .g3Done, .wait] ∧
          s.out = some (some (.Errorf ("get os signal: " ++ sig.String)))) :=
  ⟨_, _, rfl, rfl,
    (manual_shutdown_Wait [.listenOk, .request] [.shutdownNil, .serverClosed, .g3Done, .wait]
      _ _ (some .ErrServerClosed) rfl (by simp) rfl rfl (by simp) rfl).elim
      (fun h => Or.inl (congrArg some h))
      (fun ⟨sig, hm, h⟩ => Or.inr ⟨sig, hm, congrArg some h⟩)⟩

/-! ## C5: a signal, end to end -/

/-- An error that the group keeps is kept along a run. -/
theorem run_err_stable (acts : List Action) (s s' : State) (e : Err) (hr : run s acts = some s')
    (he : s.g.err = some e) : s'.g.err = some e := by
  induction acts generalizing s with
  | nil =>
    simp [run] at hr
    subst hr
    exact he
  | cons a acts ih =>
    simp only [run] at hr
    cases hs : step s a with
    | none => simp [hs] at hr
    | some s1 =>
      simp [hs] at hr
      exact ih s1 hr (step_err_stable s s1 a e hs he)

/-- The result of the third task is kept by every step. -/
theorem step_t3_stable (s s' : State) (a : Action) (r : Option Err) (hs : step s a = some s')
    (h : s.t3 = .returned r) : s'.t3 = .returned r := by
  cases a <;> simp only [step] at hs <;> split at hs <;> simp at hs <;> try subst hs
  all_goals first
    | (simp [State.taskReturn]; exact h)
    | simp_all

/-- The result of the third task is kept along a run. -/
theorem run_t3_stable (acts : List Action) (s s' : State) (r : Option Err)
    (hr : run s acts = some s') (h : s.t3 = .returned r) : s'.t3 = .returned r := by
  induction acts generalizing s with
  | nil =>
    simp [run] at hr
    subst hr
    exact h
  | cons a acts ih =>
    simp only [run] at hr
    cases hs : step s a with
    | none => simp [hs] at hr
    | some s1 =>
      simp [hs] at hr
      exact ih s1 hr (step_t3_stable s s1 a r hs h)

/-- Only the two cases of its `select` make the third task move. -/
theorem step_t3_changes (s s' : State) (a : Action) (hs : step s a = some s')
    (h : s'.t3 ≠ s.t3) : a = .g3Done ∨ a = .g3Sig := by
  cases a <;> simp only [step] at hs <;> split at hs <;> simp at hs <;> try subst hs
  all_goals first
    | exact Or.inl rfl
    | exact Or.inr rfl
    | exact absurd rfl h

/-- C5: take a state `s0` that a run of `main` reaches.
(1) If the `select` of the third task receives the signal `sig` from `c`
while the context is open, the task returns the error with the text
"get os signal: " and the name of the signal; from then on the group keeps
that error and the context is closed, so the second task, if it is still in
its `select`, can leave it and call `Shutdown`, after which the first task
can return; and when `g.Wait()` returns, it returns that error, `Shutdown`
has been called and the first two tasks have returned.
(2) When the third task takes the case `ctx.Done()`, the context is closed
and the task returns `ctx.Err()`, which is `context.Canceled`.
(3) With the context closed and no signal in `c`, the case `ctx.Done()` is the
one step the third task can take; with a signal in `c` and the context open,
it is the case of the signal. -/
theorem signal_end_to_end (pre : List Action) (s0 : State) (h0 : run init pre = some s0) :
    (∀ sig post s, s0.c = some sig → s0.g.ctx.Done = false →
      run s0 (.g3Sig :: post) = some s →
        s.t3 = .returned (some (.Errorf ("get os signal: " ++ sig.String))) ∧
        (Err.Errorf ("get os signal: " ++ sig.String)).Error = "get os signal: " ++ sig.String ∧
        s.g.err = some (.Errorf ("get os signal: " ++ sig.String)) ∧
        s.g.ctx.Done = true ∧
        (s.t2 = .selecting → (step s .g2Done).isSome = true) ∧
        (s.t2 ≠ .selecting → s.inShutdown = true) ∧
        (s.inShutdown = true → s.t1.isReturned = false → (step s .serverClosed).isSome = true) ∧
        (∀ r, s.out = some r →
          r = some (.Errorf ("get os signal: " ++ sig.String)) ∧ s.inShutdown = true ∧
          s.t1.isReturned = true ∧ s.t2.isReturned = true)) ∧
    (∀ s1, step s0 .g3Done = some s1 →
      s0.g.ctx.Done = true ∧ s1.t3 = .returned s0.g.ctx.err ∧
      s0.g.ctx.err = some .Canceled) ∧
    (s0.t3 = .selecting → s0.g.ctx.Done = true → s0.c = none →
      (step s0 .g3Done).isSome = true ∧
      ∀ a s1, step s0 a = some s1 → s1.t3 ≠ s0.t3 → a = .g3Done) ∧
    (s0.t3 = .selecting → s0.g.ctx.Done = false → s0.c ≠ none →
      (step s0 .g3Sig).isSome = true ∧
      ∀ a s1, step s0 a = some s1 → s1.t3 ≠ s0.t3 → a = .g3Sig) := by
  have hi0 := inv_run pre init s0 inv_init h0
  refine ⟨?_, ?_, ?_, ?_⟩
  · intro sig post s hc hopen hr
    simp only [run] at hr
    cases hs : step s0 .g3Sig with
    | none => simp [hs] at hr
    | some s1 =>
      simp [hs] at hr
      have hi := inv_run post s1 s (inv_step s0 s1 _ hi0 hs) hr
      have he0 : s0.g.err = none := by
        cases h : s0.g.err with
        | none => rfl
        | some e =>
          have := hi0.cancelled (by simp [h])
          simp [hopen] at this
      simp only [step] at hs
      split at hs <;> simp at hs
      next sig' ht hc' =>
      rw [hc] at hc'
      simp at hc'
      subst hc'
      subst hs
      have he1 : ({ s0 with t3 := .returned (g3 s0.g.ctx (.sig sig)), c := none }.taskReturn
          .signal (g3 s0.g.ctx (.sig sig))).g.err
            = some (.Errorf ("get os signal: " ++ sig.String)) := by
        simp [State.taskReturn, Group.taskReturn_err, he0, g3]
      have he := run_err_stable post _ s _ hr he1
      have ht3 := run_t3_stable post _ s (some (.Errorf ("get os signal: " ++ sig.String))) hr rfl
      have hd : s.g.ctx.Done = true := hi.cancelled (by simp [he])
      refine ⟨ht3, rfl, he, hd, ?_, ?_, ?_, ?_⟩
      · intro h2
        simp [step, h2, hd]
      · intro h2
        exact hi.shut.mpr h2
      · intro hsh h1
        cases ht1 : s.t1 with
        | starting => simp [step, ht1, hsh]
        | serving => simp [step, ht1, hsh]
        | returned r => simp [ht1, ServerPc.isReturned] at h1
      · intro r hout
        have hall := inv_out_returned s hi r hout
        refine ⟨by rw [(hi.out r hout).1, he], ?_, hall.1, hall.2.1⟩
        apply hi.shut.mpr
        intro h2
        simp [h2, ShutdownPc.isReturned] at hall
  · intro s1 hs
    simp only [step] at hs
    split at hs <;> simp at hs
    next ht hd =>
    subst hs
    refine ⟨hd, rfl, ?_⟩
    rcases hi0.canceledErr with h | h
    · simp [Context.Done, h] at hd
    · exact h
  · intro ht hd hc
    refine ⟨by simp [step, ht, hd], ?_⟩
    intro a s1 hs hne
    rcases step_t3_changes s0 s1 a hs hne with h | h
    · exact h
    · subst h
      simp [step, ht, hc] at hs
  · intro ht hd hc
    obtain ⟨sig, hsig⟩ := Option.ne_none_iff_exists'.mp hc
    refine ⟨by simp [step, ht, hsig], ?_⟩
    intro a s1 hs hne
    rcases step_t3_changes s0 s1 a hs hne with h | h
    · subst h
      simp [step, ht, hd] at hs
    · exact h

/-- C5, at a run: SIGTERM arrives on the serving server, the third task
returns its error, and `g.Wait()` returns it after the other two tasks have
returned. -/
theorem signal_end_to_end_witness :
    ∃ s0 s, run init [.listenOk, .signal .SIGTERM] = some s0 ∧
      run s0 [.g3Sig, .g2Done, .serverClosed, .shutdownNil, .wait] = some s ∧
      s.out = some (some (.Errorf "get os signal: terminated")) ∧
      s.g.err = some (.Errorf ("get os signal: " ++ Signal.SIGTERM.String)) :=
  ⟨_, _, rfl, rfl, rfl,
    ((signal_end_to_end [.listenOk, .signal .SIGTERM] _ rfl).1 .SIGTERM
      [.g2Done, .serverClosed, .shutdownNil, .wait] _ rfl rfl rfl).2.2.1⟩

/-! ## C6: the result of the second task -/

/-- C6 as stated fails on both sides.  In the first run the `select` of the
second task takes `ctx.Done()` (its log says so) and the task returns nil, not
`ctx.Err()`, which is `context.Canceled`; in the second run it takes the
hand-off and returns the deadline error of `Shutdown`, not nil. -/
theorem shutdown_task_result_counterexample :
    (∃ s, run init [.listenOk, .signal .SIGINT, .g3Sig, .g2Done, .shutdownNil] = some s ∧
      s.log = ["errgroup exit...", "shutting down server..."] ∧
      s.g.ctx.err = some .Canceled ∧ s.t2 = .returned none) ∧
    (∃ s, run init [.listenOk, .request, .request, .g2Recv, .shutdownTimeout] = some s ∧
      s.log = ["server will out...", "shutting down server..."] ∧
      s.t2 = .returned (some .DeadlineExceeded)) :=
  ⟨⟨_, rfl, rfl, rfl, rfl⟩, ⟨_, rfl, rfl, rfl⟩⟩

/-- C6, amended: in every run of `main`, a step that moves the second task
is either the end of its `select`, by `ctx.Done()` on a closed context or by
a hand-off of a blocked handler, where it prints the line of that case and
"shutting down server..." and calls `Shutdown`; or the return of `Shutdown`,
whose value, nil or the deadline error, the task returns in both cases.  So
the task never returns `ctx.Err()`. -/
theorem shutdown_task_returns_Shutdown_result (acts : List Action) (s s' : State) (a : Action)
    (h : run init acts = some s) (hs : step s a = some s') (hne : s'.t2 ≠ s.t2) :
    ((s.t2 = .selecting ∧ s'.inShutdown = true ∧
        ((a = .g2Done ∧ s.g.ctx.Done = true ∧ s'.t2 = .draining .ctxDone ∧
            s'.log = s.log ++ ["errgroup exit...", "shutting down server..."]) ∨
         (a = .g2Recv ∧ s'.serverOut + 1 = s.serverOut ∧ s'.t2 = .draining .serverOut ∧
            s'.log = s.log ++ ["server will out...", "shutting down server..."]))) ∨
     ((∃ c, s.t2 = .draining c) ∧ s'.log = s.log ∧
        ((a = .shutdownNil ∧ s'.t2 = .returned none ∧
            s'.history = s.history ++ [(.shutdown, none)]) ∨
         (a = .shutdownTimeout ∧ s'.t2 = .returned (some .DeadlineExceeded) ∧
            s'.history = s.history ++ [(.shutdown, some .DeadlineExceeded)])))) ∧
    (∀ (c : ShutdownCase) (r : Option Err), g2 c r = r) ∧
    (∀ r, s'.t2 = .returned r → r = none ∨ r = some .DeadlineExceeded) := by
  have hi := inv_run acts init s inv_init h
  have hi' := inv_step s s' a hi hs
  refine ⟨?_, fun _ _ => rfl, fun r hr => (hi'.r2 r hr).imp id And.left⟩
  cases a
  case wait =>
    simp only [step] at hs
    split at hs <;> simp at hs
    subst hs
    exact absurd rfl hne
  case g2Done =>
    simp only [step] at hs
    split at hs <;> simp at hs
    next ht hd =>
    subst hs
    exact Or.inl ⟨ht, rfl, Or.inl ⟨rfl, hd, rfl, rfl⟩⟩
  case g2Recv =>
    simp only [step] at hs
    split at hs <;> simp at hs
    next n ht hn =>
    subst hs
    exact Or.inl ⟨ht, rfl, Or.inr ⟨rfl, hn.symm, rfl, rfl⟩⟩
  case shutdownNil =>
    simp only [step] at hs
    split at hs <;> simp at hs
    next c ht hn =>
    subst hs
    exact Or.inr ⟨⟨c, ht⟩, rfl, Or.inl ⟨rfl, rfl, rfl⟩⟩
  case shutdownTimeout =>
    simp only [step] at hs
    split at hs <;> simp at hs
    next c ht =>
    subst hs
    exact Or.inr ⟨⟨c, ht⟩, rfl, Or.inr ⟨rfl, rfl, rfl⟩⟩
  all_goals
    simp only [step] at hs
    split at hs <;> simp at hs <;> subst hs <;> exact absurd rfl hne

/-- C6, amended, at a run: the `select` ends by `ctx.Done()` and the task
returns the nil of `Shutdown`. -/
theorem shutdown_task_returns_Shutdown_result_witness :
    ∃ s s', run init [.listenOk, .signal .SIGINT, .g3Sig, .g2Done] = some s ∧
      step s .shutdownNil = some s' ∧ s'.t2 ≠ s.t2 ∧
      (s'.t2 = .returned none ∨ s'.t2 = .returned (some .DeadlineExceeded)) :=
  ⟨_, _, rfl, rfl, by decide,
    ((shutdown_task_returns_Shutdown_result [.listenOk, .signal .SIGINT, .g3Sig, .g2Done] _ _ .shutdownNil
      rfl rfl (by decide)).2.2 none rfl).imp (congrArg _) (congrArg _)⟩

/-! ## C7: the result of the first task -/

/-- C7 as stated fails: after the hand-off of `/shutdown` made the program
call `Shutdown`, `ListenAndServe` ends with `http.ErrServerClosed` and the first
task returns that error, not nil; the group keeps it as its error. -/
theorem server_task_returns_ErrServerClosed :
    ∃ s, run init [.listenOk, .request, .g2Recv, .serverClosed] = some s ∧
      s.t1 = .returned (some .ErrServerClosed) ∧
      s.history = [(.server, some .ErrServerClosed)] ∧
      s.g.err = some .ErrServerClosed :=
  ⟨_, rfl, rfl, rfl, rfl⟩

/-- C7, amended: the first task returns the error of `ListenAndServe` as it
is.  In every run of `main`, a step that moves the first task is the bind of
the listener, or a return with a non-nil error: `http.ErrServerClosed` after
`Shutdown` was called, the error of `net.Listen`, or the error of `Accept` on a
server that is not shutting down.  So the task never returns nil. -/
theorem server_task_returns_ListenAndServe_error (acts : List Action) (s s' : State)
    (a : Action) (h : run init acts = some s) (hs : step s a = some s') (hne : s'.t1 ≠ s.t1) :
    ((a = .listenOk ∧ s.t1 = .starting ∧ s'.t1 = .serving) ∨
      ∃ e, s'.t1 = .returned (some e) ∧ s'.history = s.history ++ [(.server, some e)] ∧
        ((a = .serverClosed ∧ s.inShutdown = true ∧ e = .ErrServerClosed) ∨
         (∃ text, a = .listenFail text ∧ e = .listen text) ∨
         (∃ text, a = .acceptFail text ∧ s.inShutdown = false ∧ e = .accept text))) ∧
    (∀ e : Err, g1 e = some e) ∧
    (∀ r, s'.t1 = .returned r → r ≠ none) := by
  have hi := inv_run acts init s inv_init h
  have hi' := inv_step s s' a hi hs
  refine ⟨?_, fun _ => rfl, ?_⟩
  · cases a
    case wait =>
      simp only [step] at hs
      split at hs <;> simp at hs
      subst hs
      exact absurd rfl hne
    case listenOk =>
      simp only [step] at hs
      split at hs <;> simp at hs
      next ht _ =>
      subst hs
      exact Or.inl ⟨rfl, ht, rfl⟩
    case listenFail text =>
      simp only [step] at hs
      split at hs <;> simp at hs
      subst hs
      exact Or.inr ⟨_, rfl, rfl, Or.inr (Or.inl ⟨text, rfl, rfl⟩)⟩
    case acceptFail text =>
      simp only [step] at hs
      split at hs <;> simp at hs
      next _ hf =>
      subst hs
      exact Or.inr ⟨_, rfl, rfl, Or.inr (Or.inr ⟨text, rfl, hf, rfl⟩)⟩
    case serverClosed =>
      simp only [step] at hs
      split at hs <;> simp at hs
      · next _ hf =>
        subst hs
        exact Or.inr ⟨_, rfl, rfl, Or.inl ⟨rfl, hf, rfl⟩⟩
      · next _ hf =>
        subst hs
        exact Or.inr ⟨_, rfl, rfl, Or.inl ⟨rfl, hf, rfl⟩⟩
    all_goals
      simp only [step] at hs
      split at hs <;> simp at hs <;> subst hs <;> exact absurd rfl hne
  · intro r hr hn
    have := (hi'.r1 r hr).1
    simp [hn] at this

/-- C7, amended, at a run: `Shutdown` was called after a hand-off, and the
first task returns `http.ErrServerClosed`. -/
theorem server_task_returns_ListenAndServe_error_witness :
    ∃ s s', run init [.listenOk, .request, .g2Recv] = some s ∧
      step s .serverClosed = some s' ∧ s'.t1 ≠ s.t1 ∧
      s'.t1 = .returned (some .ErrServerClosed) ∧ g1 .ErrServerClosed = some .ErrServerClosed :=
  ⟨_, _, rfl, rfl, by decide, rfl,
    (server_task_returns_ListenAndServe_error [.listenOk, .request, .g2Recv] _ _ .serverClosed
      rfl rfl (by decide)).2.1 .ErrServerClosed⟩

/-! ## C8: the handler of `/shutdown` -/

/-- Once the second task has left its `select`, no step changes the number of
blocked handlers. -/
theorem left_select_step (s s' : State) (a : Action) (hs : step s a = some s')
    (ht : s.t2 ≠ .selecting) (hsh : s.inShutdown = true) :
    s'.t2 ≠ .selecting ∧ s'.inShutdown = true ∧ s'.serverOut = s.serverOut := by
  cases a
  case wait =>
    simp only [step] at hs
    split at hs <;> simp at hs
    subst hs
    exact ⟨ht, hsh, rfl⟩
  case request =>
    simp only [step] at hs
    split at hs <;> simp at hs
    next _ hf => simp [hsh] at hf
  case g2Done =>
    simp only [step] at hs
    split at hs <;> simp at hs
    next h2 _ => exact absurd h2 ht
  case g2Recv =>
    simp only [step] at hs
    split at hs <;> simp at hs
    next h2 _ => exact absurd h2 ht
  all_goals
    simp only [step] at hs
    split at hs <;> simp at hs <;> subst hs <;>
      simp [State.taskReturn, hsh] <;> exact ht

/-- Once the second task has left its `select`, the number of blocked
handlers stays the same along a run. -/
theorem left_select_run (acts : List Action) (s s' : State) (hr : run s acts = some s')
    (ht : s.t2 ≠ .selecting) (hsh : s.inShutdown = true) : s'.serverOut = s.serverOut := by
  induction acts generalizing s with
  | nil =>
    simp [run] at hr
    subst hr
    rfl
  | cons a acts ih =>
    simp only [run] at hr
    cases hs : step s a with
    | none => simp [hs] at hr
    | some s1 =>
      simp [hs] at hr
      obtain ⟨h1, h2, h3⟩ := left_select_step s s1 a hs ht hsh
      rw [ih s1 hr h1 h2, h3]

/-- C8 as stated fails: a request to `/shutdown` that arrives when the
context is already closed blocks in its send; the `select` of the second task
takes `ctx.Done()`, and in every continuation of the run the handler is still
blocked. -/
theorem handler_blocks_forever :
    ∃ s, run init [.listenOk, .signal .SIGTERM, .g3Sig, .request, .g2Done] = some s ∧
      s.g.ctx.Done = true ∧ s.serverOut = 1 ∧
      ∀ acts s', run s acts = some s' → s'.serverOut = 1 :=
  ⟨_, rfl, rfl, rfl, fun acts s' hr => left_select_run acts _ s' hr (by decide) rfl⟩

/-- C8, amended: in every run of `main`, a blocked send on `serverOut` ends only
when the `select` of the second task receives it, one send for one receive;
while that task is in its `select` a blocked send can be received; once the
task has left its `select`, the handlers that are blocked stay blocked in
every continuation of the run. -/
theorem handler_returns_only_by_handoff (acts : List Action) (s : State)
    (h : run init acts = some s) :
    (∀ a s', step s a = some s' → s'.serverOut < s.serverOut →
      a = .g2Recv ∧ s.t2 = .selecting ∧ s'.serverOut + 1 = s.serverOut) ∧
    (s.t2 = .selecting → 0 < s.serverOut → (step s .g2Recv).isSome = true) ∧
    (s.t2 ≠ .selecting → ∀ acts' s', run s acts' = some s' → s'.serverOut = s.serverOut) := by
  have hi := inv_run acts init s inv_init h
  refine ⟨?_, ?_, ?_⟩
  · intro a s' hs hlt
    cases a
    case wait =>
      simp only [step] at hs
      split at hs <;> simp at hs
      subst hs
      simp at hlt
    case g2Recv =>
      simp only [step] at hs
      split at hs <;> simp at hs
      next n ht hn =>
      subst hs
      exact ⟨rfl, ht, hn.symm⟩
    all_goals
      simp only [step] at hs
      split at hs <;> simp at hs <;> subst hs <;> simp [State.taskReturn] at hlt
  · intro ht hpos
    obtain ⟨n, hn⟩ := Nat.exists_eq_succ_of_ne_zero (Nat.pos_iff_ne_zero.mp hpos)
    simp [step, ht, hn]
  · intro ht acts' s' hr
    exact left_select_run acts' s s' hr ht (hi.shut.mpr ht)

/-- C8, amended, at a run: the second task left its `select` by `ctx.Done()`
while a handler was blocked; the handler is still blocked after `Shutdown`
has timed out and everything else has returned. -/
theorem handler_returns_only_by_handoff_witness :
    ∃ s s', run init [.listenOk, .signal .SIGTERM, .g3Sig, .request, .g2Done] = some s ∧
      run s [.shutdownTimeout, .serverClosed, .wait] = some s' ∧
      s'.allExited = true ∧ s.serverOut = 1 ∧ s'.serverOut = s.serverOut :=
  ⟨_, _, rfl, rfl, rfl, rfl,
    (handler_returns_only_by_handoff [.listenOk, .signal .SIGTERM, .g3Sig, .request, .g2Done] _
      rfl).2.2 (by decide) [.shutdownTimeout, .serverClosed, .wait] _ rfl⟩

end week03
